import Mathlib

/-!
Verification development for the CPU-topology engine of haproxy
(src/cpu_topo.c together with include/haproxy/cpu_topo-t.h).

The C data model and operations are shallowly embedded:
* `HaCpuTopo` mirrors `struct ha_cpu_topo` (all `short` fields become `Int`,
  the `ushort st` flag bitset becomes `Nat`);
* `hap_cpuset` is modelled as a finite set of `Int` with the membership and
  count operations used by the code;
* the topology store (a C array of `ha_cpuset_size()` entries) becomes a
  `List HaCpuTopo`, loops over `cpu = 0..maxcpus-1` become indexed maps and
  index-carrying recursions;
* `qsort` is modelled by an insertion sort parameterized by the comparator;
  on every concrete input evaluated below the comparator is a total order on
  the elements (no ties), so any comparison sort produces the same array.
-/

namespace CpuTopo

/-- `HA_CPU_F_EXCLUDED` flag from cpu_topo-t.h: CPU excluded at boot. -/
def HA_CPU_F_EXCLUDED : Nat := 0x0001

/-- `HA_CPU_F_OFFLINE` flag from cpu_topo-t.h: CPU known to be offline. -/
def HA_CPU_F_OFFLINE : Nat := 0x0002

/-- `CPU_SET_FL_DO_RESET` flag from cpu_topo.c. -/
def CPU_SET_FL_DO_RESET : Nat := 0x0001

/-- Mirror of `struct ha_cpu_topo` (cpu_topo-t.h). The C `short` identifier
fields (with `-1` = unknown) are embedded as `Int`; the `ushort st` flag word
as `Nat`. The five-entry array `ca_id[5]` becomes five fields. -/
structure HaCpuTopo where
  st : Nat
  idx : Int
  ca_id0 : Int
  ca_id1 : Int
  ca_id2 : Int
  ca_id3 : Int
  ca_id4 : Int
  ts_id : Int
  cl_gid : Int
  cl_lid : Int
  no_id : Int
  pk_id : Int
  tg_id : Int
  th_cnt : Int
  th_id : Int
  capa : Int
deriving DecidableEq, Repr

/-- The all-unknown descriptor produced by `cpu_topo_alloc` before the index
is written: every short field `-1`, flags `0`.  Also used as the out-of-range
placeholder of list lookups (the C code never reads out of range). -/
def dummyTopo : HaCpuTopo :=
  { st := 0, idx := -1, ca_id0 := -1, ca_id1 := -1, ca_id2 := -1, ca_id3 := -1,
    ca_id4 := -1, ts_id := -1, cl_gid := -1, cl_lid := -1, no_id := -1,
    pk_id := -1, tg_id := -1, th_cnt := -1, th_id := -1, capa := -1 }

/-- `struct hap_cpuset`: a bitset of CPU/identifier numbers.  Modelled as a
finite set of `Int` so that the code's (well-formed) `-1`-indexed lookups can
be stated exactly. -/
abbrev hap_cpuset := Finset Int

/-- `ha_cpuset_isset`, as used by cpu_topo.c (index may be a `-1` id). -/
def ha_cpuset_isset (s : hap_cpuset) (i : Int) : Bool := decide (i ∈ s)

/-- `ha_cpuset_count`. -/
def ha_cpuset_count (s : hap_cpuset) : Nat := s.card

/-- Mirror of `struct cpu_set_cfg` (cpu_topo.c). -/
structure CpuSetCfg where
  flags : Nat
  only_cpus : hap_cpuset
  drop_cpus : hap_cpuset
  only_nodes : hap_cpuset
  drop_nodes : hap_cpuset
  only_clusters : hap_cpuset
  drop_clusters : hap_cpuset
  only_cores : hap_cpuset
  drop_cores : hap_cpuset
  only_threads : hap_cpuset
  drop_threads : hap_cpuset

/-- A C loop `for (cpu = n; ...; cpu++)` over the tail of the store, applying
a per-index update to each element. -/
def mapIdxFrom (f : Nat → α → α) : Nat → List α → List α
  | _, [] => []
  | n, d :: t => f n d :: mapIdxFrom f (n + 1) t

theorem mapIdxFrom_get? (f : Nat → α → α) (l : List α) :
    ∀ n i, (mapIdxFrom f n l).get? i = (l.get? i).map (f (n + i)) := by
  induction l with
  | nil => intro n i; simp [mapIdxFrom]
  | cons d t ih =>
    intro n i
    cases i with
    | zero => simp [mapIdxFrom]
    | succ j =>
      have h : n + (j + 1) = (n + 1) + j := by omega
      simp only [mapIdxFrom, List.get?_cons_succ, h]
      exact ih (n + 1) j

theorem mapIdxFrom_getElem? (f : Nat → α → α) (l : List α) (n i : Nat) :
    (mapIdxFrom f n l)[i]? = l[i]?.map (f (n + i)) := by
  have h := mapIdxFrom_get? f l n i
  simpa [List.get?_eq_getElem?] using h

theorem mapIdxFrom_map_eq (f : Nat → α → α) (g : α → β)
    (h : ∀ i d, g (f i d) = g d) (l : List α) :
    ∀ n, (mapIdxFrom f n l).map g = l.map g := by
  induction l with
  | nil => intro n; simp [mapIdxFrom]
  | cons d t ih => intro n; simp [mapIdxFrom, h, ih]

/-! ### Bitwise helper lemmas for the `st` flag word -/

theorem land_lor_right (x y z : Nat) :
    (x ||| y) &&& z = (x &&& z) ||| (y &&& z) := by
  apply Nat.eq_of_testBit_eq
  intro i
  simp only [Nat.testBit_and, Nat.testBit_or]
  cases x.testBit i <;> cases y.testBit i <;> cases z.testBit i <;> rfl

theorem lor_left_eq_zero {x y : Nat} (h : x ||| y = 0) : x = 0 := by
  apply Nat.eq_of_testBit_eq
  intro i
  have hb := congrArg (fun n => Nat.testBit n i) h
  simp only [Nat.testBit_or, Nat.zero_testBit, Bool.or_eq_false_iff] at hb
  simp [hb.1]

theorem lor_flag_preserves (st e f : Nat) (he : e &&& f = 0) :
    (st ||| e) &&& f = st &&& f := by
  rw [land_lor_right, he, Nat.or_zero]

theorem flag_mono (st e f : Nat) (h : st &&& f ≠ 0) : (st ||| e) &&& f ≠ 0 := by
  rw [land_lor_right]
  intro hz
  exact h (lor_left_eq_zero hz)

/-! ### The comparator family (cpu_topo.c lines 245-900)

Every comparator in the C file is a straight-line priority chain: a sequence
of key comparisons, each of which either returns `-1`/`1` or falls through to
the next.  `cmpChain` captures that control flow; each key kind below is the
exact C condition pair of the corresponding `if`/`if` block. -/

/-- First nonzero result of a sequence of key comparisons (the C pattern
`if (...) return -1; if (...) return 1; /* next key */ ...`). -/
def cmpChain : List (HaCpuTopo → HaCpuTopo → Int) → HaCpuTopo → HaCpuTopo → Int
  | [], _, _ => 0
  | k :: ks, a, b => if k a b = 0 then cmpChain ks a b else k a b

/-- True when the CPU is neither OFFLINE nor EXCLUDED
(`!(st & (HA_CPU_F_OFFLINE | HA_CPU_F_EXCLUDED))`). -/
def stOk (d : HaCpuTopo) : Prop :=
  d.st &&& (HA_CPU_F_OFFLINE ||| HA_CPU_F_EXCLUDED) = 0

instance (d : HaCpuTopo) : Decidable (stOk d) := by unfold stOk; infer_instance

/-- Shared first key: online+non-excluded sorts before offline/excluded. -/
def stKey (a b : HaCpuTopo) : Int :=
  if stOk a ∧ ¬ stOk b then -1
  else if stOk b ∧ ¬ stOk a then 1
  else 0

/-- The identifier-key pattern used for every id field:
`if (l->f >= 0 && l->f < r->f) return -1; if (l->f > r->f && r->f >= 0) return 1;`. -/
def keyCmp (x y : Int) : Int :=
  if 0 ≤ x ∧ x < y then -1
  else if x > y ∧ 0 ≤ y then 1
  else 0

/-- Identifier key comparison on a descriptor field. -/
def idKey (f : HaCpuTopo → Int) (a b : HaCpuTopo) : Int := keyCmp (f a) (f b)

/-- Capacity key, higher-is-better with the ±5% tolerance
(`l->capa > 0 && l->capa * 19 > r->capa * 20` etc.). -/
def capaKeyDesc (a b : HaCpuTopo) : Int :=
  if 0 < a.capa ∧ a.capa * 19 > b.capa * 20 then -1
  else if 0 < b.capa ∧ a.capa * 20 < b.capa * 19 then 1
  else 0

/-- Capacity key of the `resource` strategy: same conditions, reversed
verdicts (lower is better). -/
def capaKeyAsc (a b : HaCpuTopo) : Int :=
  if 0 < a.capa ∧ a.capa * 19 > b.capa * 20 then 1
  else if 0 < b.capa ∧ a.capa * 20 < b.capa * 19 then -1
  else 0

/-- SMT-width key, wider-is-better (`l->th_cnt > r->th_cnt` → -1). -/
def thCntDesc (a b : HaCpuTopo) : Int :=
  if a.th_cnt > b.th_cnt then -1
  else if a.th_cnt < b.th_cnt then 1
  else 0

/-- SMT-width key of the `resource` strategy (narrower is better). -/
def thCntAsc (a b : HaCpuTopo) : Int :=
  if a.th_cnt > b.th_cnt then 1
  else if a.th_cnt < b.th_cnt then -1
  else 0

/-- `_cmp_cpu_index`: index only. -/
def _cmp_cpu_index : HaCpuTopo → HaCpuTopo → Int :=
  cmpChain [idKey (·.idx)]

/-- `_cmp_cpu_locality`: st, package, node, L4, L3, cluster, L2, thread set,
L1, L0, index. -/
def _cmp_cpu_locality : HaCpuTopo → HaCpuTopo → Int :=
  cmpChain [stKey, idKey (·.pk_id), idKey (·.no_id), idKey (·.ca_id4),
    idKey (·.ca_id3), idKey (·.cl_gid), idKey (·.ca_id2), idKey (·.ts_id),
    idKey (·.ca_id1), idKey (·.ca_id0), idKey (·.idx)]

/-- `_cmp_cpu_cluster_capa`: locality down to the cluster, then capacity,
then the remaining locality keys. -/
def _cmp_cpu_cluster_capa : HaCpuTopo → HaCpuTopo → Int :=
  cmpChain [stKey, idKey (·.pk_id), idKey (·.no_id), idKey (·.ca_id4),
    idKey (·.ca_id3), idKey (·.cl_gid), capaKeyDesc, idKey (·.ca_id2),
    idKey (·.ts_id), idKey (·.ca_id1), idKey (·.ca_id0), idKey (·.idx)]

/-- `_cmp_cpu_performance`: st, capacity desc, SMT desc, sibling id, L0, L1,
thread set, L2, cluster, L3, L4, node, package, index. -/
def _cmp_cpu_performance : HaCpuTopo → HaCpuTopo → Int :=
  cmpChain [stKey, capaKeyDesc, thCntDesc, idKey (·.th_id), idKey (·.ca_id0),
    idKey (·.ca_id1), idKey (·.ts_id), idKey (·.ca_id2), idKey (·.cl_gid),
    idKey (·.ca_id3), idKey (·.ca_id4), idKey (·.no_id), idKey (·.pk_id),
    idKey (·.idx)]

/-- `_cmp_cpu_low_latency`: st, package, node, L4, L3, capacity desc,
SMT desc, cluster, L2, thread set, L1, L0, index. -/
def _cmp_cpu_low_latency : HaCpuTopo → HaCpuTopo → Int :=
  cmpChain [stKey, idKey (·.pk_id), idKey (·.no_id), idKey (·.ca_id4),
    idKey (·.ca_id3), capaKeyDesc, thCntDesc, idKey (·.cl_gid),
    idKey (·.ca_id2), idKey (·.ts_id), idKey (·.ca_id1), idKey (·.ca_id0),
    idKey (·.idx)]

/-- `_cmp_cpu_balanced`: st, capacity desc, SMT desc, package, node, L4, L3,
sibling id, cluster, L2, thread set, L1, L0, index. -/
def _cmp_cpu_balanced : HaCpuTopo → HaCpuTopo → Int :=
  cmpChain [stKey, capaKeyDesc, thCntDesc, idKey (·.pk_id), idKey (·.no_id),
    idKey (·.ca_id4), idKey (·.ca_id3), idKey (·.th_id), idKey (·.cl_gid),
    idKey (·.ca_id2), idKey (·.ts_id), idKey (·.ca_id1), idKey (·.ca_id0),
    idKey (·.idx)]

/-- `_cmp_cpu_resource`: st, capacity asc, SMT asc, package, node, L4, L3,
cluster, L2, thread set, L1, L0, index. -/
def _cmp_cpu_resource : HaCpuTopo → HaCpuTopo → Int :=
  cmpChain [stKey, capaKeyAsc, thCntAsc, idKey (·.pk_id), idKey (·.no_id),
    idKey (·.ca_id4), idKey (·.ca_id3), idKey (·.cl_gid), idKey (·.ca_id2),
    idKey (·.ts_id), idKey (·.ca_id1), idKey (·.ca_id0), idKey (·.idx)]

/-- `_cmp_cpu_cluster` (internal to the fixup engine): st, cluster, package,
node, L3, L2, index. -/
def _cmp_cpu_cluster : HaCpuTopo → HaCpuTopo → Int :=
  cmpChain [stKey, idKey (·.cl_gid), idKey (·.pk_id), idKey (·.no_id),
    idKey (·.ca_id3), idKey (·.ca_id2), idKey (·.idx)]

/-! ### qsort model

The C code hands each comparator to `qsort`.  We model it with an insertion
sort; on every concrete store this development evaluates the comparator in
use is a total order on the elements (all indexes distinct and the compared
keys consistent), so the sorted result is the one `qsort` produces. -/

/-- Insert into a cmp-sorted list at the first position that is not
strictly before `x`. -/
def cmpInsert (cmp : α → α → Int) (x : α) : List α → List α
  | [] => [x]
  | y :: t => if cmp x y ≤ 0 then x :: y :: t else y :: cmpInsert cmp x t

/-- Comparison sort standing in for the C `qsort`. -/
def qsortc (cmp : α → α → Int) : List α → List α
  | [] => []
  | x :: t => cmpInsert cmp x (qsortc cmp t)

theorem cmpInsert_perm (cmp : α → α → Int) (x : α) (l : List α) :
    (cmpInsert cmp x l).Perm (x :: l) := by
  induction l with
  | nil => simp [cmpInsert]
  | cons y t ih =>
    by_cases h : cmp x y ≤ 0
    · simp [cmpInsert, h]
    · simp only [cmpInsert, if_neg h]
      exact (ih.cons y).trans (List.Perm.swap x y t)

theorem qsortc_perm (cmp : α → α → Int) (l : List α) :
    (qsortc cmp l).Perm l := by
  induction l with
  | nil => simp [qsortc]
  | cons x t ih =>
    exact (cmpInsert_perm cmp x (qsortc cmp t)).trans (ih.cons x)

/-- `cpu_reorder_by_index`. -/
def cpu_reorder_by_index (topo : List HaCpuTopo) : List HaCpuTopo :=
  qsortc _cmp_cpu_index topo

/-- `cpu_reorder_by_locality`. -/
def cpu_reorder_by_locality (topo : List HaCpuTopo) : List HaCpuTopo :=
  qsortc _cmp_cpu_locality topo

/-- `cpu_reorder_by_cluster_capa`. -/
def cpu_reorder_by_cluster_capa (topo : List HaCpuTopo) : List HaCpuTopo :=
  qsortc _cmp_cpu_cluster_capa topo

/-! ### Filter engine (cpu_detect_usable, cpu_refine_cpusets)

The two OS probes (`ha_cpuset_detect_bound`, `ha_cpuset_detect_online`) zero
their result set and fill it from the OS; on failure the set stays empty and
the return value is 0 (`ha_cpuset_detect_online` returns the count of the
set it produced).  The probe outcome is passed to the functions below as the
set the probe left behind. -/

/-- `st |= flag`. -/
def setFlag (d : HaCpuTopo) (f : Nat) : HaCpuTopo := { d with st := d.st ||| f }

/-- Boot-affinity step of `cpu_detect_usable` (cpu_topo.c lines 119-127):
unless the reset flag is set, exclude every CPU not in the set left by
`ha_cpuset_detect_bound` (whose failure return is not checked). -/
def cpu_usable_boot (cfg : CpuSetCfg) (boot_set : hap_cpuset)
    (topo : List HaCpuTopo) : List HaCpuTopo :=
  if cfg.flags &&& CPU_SET_FL_DO_RESET = 0 then
    mapIdxFrom (fun cpu d =>
      if ha_cpuset_isset boot_set (cpu : Int) = false then
        setFlag d HA_CPU_F_EXCLUDED
      else d) 0 topo
  else topo

/-- drop-cpu/only-cpu step of `cpu_detect_usable` (lines 129-134). -/
def cpu_usable_cpuset (cfg : CpuSetCfg) (topo : List HaCpuTopo) :
    List HaCpuTopo :=
  mapIdxFrom (fun cpu d =>
    if (ha_cpuset_isset cfg.drop_cpus (cpu : Int)
        || !ha_cpuset_isset cfg.only_cpus (cpu : Int)) = true then
      setFlag d HA_CPU_F_EXCLUDED
    else d) 0 topo

/-- Online step of `cpu_detect_usable` (lines 136-145): only run when the
online probe returned a nonzero count. -/
def cpu_usable_online (online_set : hap_cpuset) (topo : List HaCpuTopo) :
    List HaCpuTopo :=
  if ha_cpuset_count online_set ≠ 0 then
    mapIdxFrom (fun cpu d =>
      if ha_cpuset_isset online_set (cpu : Int) = false then
        setFlag d HA_CPU_F_OFFLINE
      else d) 0 topo
  else topo

/-- `cpu_detect_usable`, with the two probe results as arguments. -/
def cpu_detect_usable (cfg : CpuSetCfg) (boot_bound boot_online : hap_cpuset)
    (topo : List HaCpuTopo) : List HaCpuTopo :=
  cpu_usable_online boot_online (cpu_usable_cpuset cfg (cpu_usable_boot cfg boot_bound topo))

/-- Node pass of `cpu_refine_cpusets` (lines 1095-1100). -/
def cpu_refine_nodes (cfg : CpuSetCfg) (topo : List HaCpuTopo) :
    List HaCpuTopo :=
  topo.map (fun d =>
    if (ha_cpuset_isset cfg.drop_nodes d.no_id
        || !ha_cpuset_isset cfg.only_nodes d.no_id) = true then
      setFlag d HA_CPU_F_EXCLUDED else d)

/-- Cluster pass of `cpu_refine_cpusets` (lines 1102-1107), keyed by the
cluster local id. -/
def cpu_refine_clusters (cfg : CpuSetCfg) (topo : List HaCpuTopo) :
    List HaCpuTopo :=
  topo.map (fun d =>
    if (ha_cpuset_isset cfg.drop_clusters d.cl_lid
        || !ha_cpuset_isset cfg.only_clusters d.cl_lid) = true then
      setFlag d HA_CPU_F_EXCLUDED else d)

/-- Core pass of `cpu_refine_cpusets` (lines 1109-1114), keyed by the
thread-set id. -/
def cpu_refine_cores (cfg : CpuSetCfg) (topo : List HaCpuTopo) :
    List HaCpuTopo :=
  topo.map (fun d =>
    if (ha_cpuset_isset cfg.drop_cores d.ts_id
        || !ha_cpuset_isset cfg.only_cores d.ts_id) = true then
      setFlag d HA_CPU_F_EXCLUDED else d)

/-- Thread pass of `cpu_refine_cpusets` (lines 1116-1121), keyed by the
sibling thread id. -/
def cpu_refine_threads (cfg : CpuSetCfg) (topo : List HaCpuTopo) :
    List HaCpuTopo :=
  topo.map (fun d =>
    if (ha_cpuset_isset cfg.drop_threads d.th_id
        || !ha_cpuset_isset cfg.only_threads d.th_id) = true then
      setFlag d HA_CPU_F_EXCLUDED else d)

/-- `cpu_refine_cpusets` (lines 1089-1122): four per-dimension passes, each
testing the descriptor's id (possibly `-1`) against the drop/only sets. -/
def cpu_refine_cpusets (cfg : CpuSetCfg) (topo : List HaCpuTopo) :
    List HaCpuTopo :=
  cpu_refine_threads cfg (cpu_refine_cores cfg
    (cpu_refine_clusters cfg (cpu_refine_nodes cfg topo)))

/-! Outcome of each individual membership test, as a flag word to be ORed
into `st` (0 when the test keeps the CPU). -/

/-- Boot-affinity test outcome for a CPU slot. -/
def boot_test (cfg : CpuSetCfg) (bnd : hap_cpuset) (cpu : Nat) : Nat :=
  if cfg.flags &&& CPU_SET_FL_DO_RESET = 0 ∧
     ha_cpuset_isset bnd (cpu : Int) = false then HA_CPU_F_EXCLUDED else 0

/-- drop-cpu/only-cpu test outcome. -/
def cpuset_test (cfg : CpuSetCfg) (cpu : Nat) : Nat :=
  if (ha_cpuset_isset cfg.drop_cpus (cpu : Int)
      || !ha_cpuset_isset cfg.only_cpus (cpu : Int)) = true then
    HA_CPU_F_EXCLUDED else 0

/-- Online test outcome. -/
def online_test (onl : hap_cpuset) (cpu : Nat) : Nat :=
  if ha_cpuset_count onl ≠ 0 ∧ ha_cpuset_isset onl (cpu : Int) = false then
    HA_CPU_F_OFFLINE else 0

/-- only/drop-node test outcome for a descriptor. -/
def node_test (cfg : CpuSetCfg) (d : HaCpuTopo) : Nat :=
  if (ha_cpuset_isset cfg.drop_nodes d.no_id
      || !ha_cpuset_isset cfg.only_nodes d.no_id) = true then
    HA_CPU_F_EXCLUDED else 0

/-- only/drop-cluster test outcome. -/
def cluster_test (cfg : CpuSetCfg) (d : HaCpuTopo) : Nat :=
  if (ha_cpuset_isset cfg.drop_clusters d.cl_lid
      || !ha_cpuset_isset cfg.only_clusters d.cl_lid) = true then
    HA_CPU_F_EXCLUDED else 0

/-- only/drop-core test outcome. -/
def core_test (cfg : CpuSetCfg) (d : HaCpuTopo) : Nat :=
  if (ha_cpuset_isset cfg.drop_cores d.ts_id
      || !ha_cpuset_isset cfg.only_cores d.ts_id) = true then
    HA_CPU_F_EXCLUDED else 0

/-- only/drop-thread test outcome. -/
def thread_test (cfg : CpuSetCfg) (d : HaCpuTopo) : Nat :=
  if (ha_cpuset_isset cfg.drop_threads d.th_id
      || !ha_cpuset_isset cfg.only_threads d.th_id) = true then
    HA_CPU_F_EXCLUDED else 0

/-! ### Fixup engine (cpu_fixup_topology, cpu_topo.c lines 945-1086) -/

/-- The `lastcpu` computation at the top of `cpu_fixup_topology` (and of
`cpu_detect_topology`): highest index whose OFFLINE flag is clear, 0 when
none is. -/
def lastcpu_go : Nat → Nat → List HaCpuTopo → Nat
  | acc, _, [] => acc
  | acc, i, d :: t =>
    lastcpu_go (if d.st &&& HA_CPU_F_OFFLINE = 0 then i else acc) (i + 1) t

/-- `lastcpu` of a store. -/
def lastcpuFn (topo : List HaCpuTopo) : Nat := lastcpu_go 0 0 topo

/-- First fixup step (lines 964-967): default the capacity of CPUs up to
`lastcpu` whose capacity is unknown, from their SMT sibling count. -/
def cpu_fixup_capa (lastcpu : Nat) (topo : List HaCpuTopo) : List HaCpuTopo :=
  mapIdxFrom (fun cpu d =>
    if cpu ≤ lastcpu ∧ d.capa < 0 then
      { d with capa := if d.th_cnt > 1 then 100 else 50 }
    else d) 0 topo

/-- Inner assignment loop of the L3-synthesis step (lines 1002-1008):
give the synthetic L3 id 0 to every CPU from `cpu2` to `lastcpu` that still
lacks an L3 id and shares (package, node, L4) with the current CPU. -/
def l3_assign (lastcpu cpu2 : Nat) (pk no ca4 : Int) (arr : List HaCpuTopo) :
    List HaCpuTopo :=
  mapIdxFrom (fun i e =>
    if cpu2 ≤ i ∧ i ≤ lastcpu ∧ e.ca_id3 < 0 ∧ e.pk_id = pk ∧ e.no_id = no ∧
       e.ca_id4 = ca4 then
      { e with ca_id3 := 0 }
    else e) 0 arr

/-- Outer loop of the L3-synthesis step (lines 980-1011).  `fuel` counts the
remaining iterations (`lastcpu + 1 - cpu`); the state is exactly the C local
variables `(curr_gid, prev_gid, cpu2)`.  Note that the C loop never stores
into `prev_gid` besides the `-2` reset, so the `else if` branch fires for
every CPU of a run after the first. -/
def l3_go (lastcpu : Nat) :
    Nat → Nat → List HaCpuTopo → Int → Int → Nat → List HaCpuTopo
  | 0, _, arr, _, _, _ => arr
  | fuel + 1, cpu, arr, curr_gid, prev_gid, cpu2 =>
    if cpu > lastcpu then arr
    else
      let d := arr.getD cpu dummyTopo
      let p := arr.getD (cpu - 1) dummyTopo
      if 0 ≤ d.ca_id3 then
        l3_go lastcpu fuel (cpu + 1) arr curr_gid prev_gid cpu2
      else if cpu = 0 ∨ d.pk_id ≠ p.pk_id ∨ d.no_id ≠ p.no_id ∨
              d.ca_id4 ≠ p.ca_id4 then
        l3_go lastcpu fuel (cpu + 1) arr 0 (-2) cpu
      else if d.ca_id2 ≠ prev_gid then
        if curr_gid + 1 ≥ 2 then
          l3_go lastcpu fuel (cpu + 1)
            (l3_assign lastcpu cpu2 d.pk_id d.no_id d.ca_id4 arr)
            (curr_gid + 1) prev_gid (lastcpu + 1)
        else
          l3_go lastcpu fuel (cpu + 1) arr (curr_gid + 1) prev_gid cpu2
      else
        l3_go lastcpu fuel (cpu + 1) arr curr_gid prev_gid cpu2

/-- L3-synthesis step of `cpu_fixup_topology`: run the outer loop from CPU 0
with the C initial state `curr_gid = -1`, `prev_gid = -2`, `cpu2 = 0`. -/
def cpu_fixup_l3 (lastcpu : Nat) (arr : List HaCpuTopo) : List HaCpuTopo :=
  l3_go lastcpu (lastcpu + 1) 0 arr (-1) (-2) 0

/-- Cluster-renumbering loop (lines 1019-1051).  `prevE` is the previous
array slot (`none` at cpu 0), `prev_gid`/`prev_lid` the C variables saving
the previous slot's original cluster ids. -/
def clust_go (lastcpu : Nat) :
    Nat → Option HaCpuTopo → Int → Int → Int → Int → List HaCpuTopo →
    List HaCpuTopo
  | _, _, _, _, _, _, [] => []
  | i, prevE, prev_gid, _prev_lid, curr_gid, curr_lid, d :: rest =>
    if i > lastcpu then d :: rest
    else
      let gl : Int × Int :=
        match prevE with
        | none => (curr_gid + 1, 0)
        | some p =>
          if d.pk_id ≠ p.pk_id ∨ d.no_id ≠ p.no_id then (curr_gid + 1, 0)
          else if d.cl_gid ≠ prev_gid ∨ d.ca_id4 ≠ p.ca_id4 ∨
                  (d.ca_id4 < 0 ∧ (d.ca_id3 ≠ p.ca_id3 ∨
                    (d.ca_id3 < 0 ∧ d.ca_id2 ≠ p.ca_id2))) ∨
                  (0 < d.capa ∧ 0 < p.capa ∧
                    (d.capa * 100 < p.capa * 95 ∨ d.capa * 95 > p.capa * 100))
            then (curr_gid + 1, curr_lid + 1)
          else (curr_gid, curr_lid)
      let d' := { d with cl_gid := gl.1, cl_lid := gl.2 }
      d' :: clust_go lastcpu (i + 1) (some d') d.cl_gid d.cl_lid gl.1 gl.2 rest

/-- Cluster-renumbering step with the C initial state. -/
def cpu_fixup_clusters (lastcpu : Nat) (arr : List HaCpuTopo) :
    List HaCpuTopo :=
  clust_go lastcpu 0 none (-2) (-2) (-1) (-1) arr

/-- Thread-set renumbering loop (lines 1058-1083). -/
def ts_go (lastcpu : Nat) :
    Nat → Option HaCpuTopo → Int → Int → List HaCpuTopo → List HaCpuTopo
  | _, _, _, _, [] => []
  | i, prevE, prev_lid, curr_lid, d :: rest =>
    if i > lastcpu then d :: rest
    else
      let cl : Int :=
        match prevE with
        | none => 0
        | some p =>
          if d.pk_id ≠ p.pk_id ∨ d.no_id ≠ p.no_id then 0
          else if d.ts_id ≠ prev_lid ∨ d.ca_id4 ≠ p.ca_id4 ∨
                  (d.ca_id4 < 0 ∧ (d.ca_id3 ≠ p.ca_id3 ∨
                    (d.ca_id3 < 0 ∧ d.ca_id2 ≠ p.ca_id2)))
            then curr_lid + 1
          else curr_lid
      let d' := { d with ts_id := cl }
      d' :: ts_go lastcpu (i + 1) (some d') d.ts_id cl rest

/-- Thread-set renumbering step with the C initial state. -/
def cpu_fixup_ts (lastcpu : Nat) (arr : List HaCpuTopo) : List HaCpuTopo :=
  ts_go lastcpu 0 none (-2) (-1) arr

/-- `cpu_fixup_topology`: capacity defaults, locality sort, L3 synthesis,
locality+capacity sort, cluster renumbering, locality sort, thread-set
renumbering, final re-sort by index.  `lastcpu` is computed once, up front,
exactly as in the C code. -/
def cpu_fixup_topology (topo : List HaCpuTopo) : List HaCpuTopo :=
  let lastcpu := lastcpuFn topo
  let t1 := cpu_fixup_capa lastcpu topo
  let t2 := cpu_reorder_by_locality t1
  let t3 := cpu_fixup_l3 lastcpu t2
  let t4 := cpu_reorder_by_cluster_capa t3
  let t5 := cpu_fixup_clusters lastcpu t4
  let t6 := cpu_reorder_by_locality t5
  let t7 := cpu_fixup_ts lastcpu t6
  cpu_reorder_by_index t7

/-! ### Comparator lemmas -/

/-- A key comparison whose verdict flips with its arguments. -/
def KeyAntisym (k : HaCpuTopo → HaCpuTopo → Int) : Prop :=
  ∀ a b, k b a = -(k a b)

theorem stKey_antisym : KeyAntisym stKey := by
  intro a b
  unfold stKey
  split_ifs <;> first | rfl | omega | tauto

theorem idKey_antisym (f : HaCpuTopo → Int) : KeyAntisym (idKey f) := by
  intro a b
  unfold idKey keyCmp
  split_ifs <;> omega

theorem capaKeyDesc_antisym : KeyAntisym capaKeyDesc := by
  intro a b
  unfold capaKeyDesc
  split_ifs <;> omega

theorem capaKeyAsc_antisym : KeyAntisym capaKeyAsc := by
  intro a b
  unfold capaKeyAsc
  split_ifs <;> omega

theorem thCntDesc_antisym : KeyAntisym thCntDesc := by
  intro a b
  unfold thCntDesc
  split_ifs <;> omega

theorem thCntAsc_antisym : KeyAntisym thCntAsc := by
  intro a b
  unfold thCntAsc
  split_ifs <;> omega

theorem cmpChain_antisym (ks : List (HaCpuTopo → HaCpuTopo → Int))
    (h : ∀ k ∈ ks, KeyAntisym k) (a b : HaCpuTopo) :
    cmpChain ks b a = -(cmpChain ks a b) := by
  induction ks with
  | nil => simp [cmpChain]
  | cons k t ih =>
    have hk : k b a = -(k a b) := h k (List.mem_cons_self k t) a b
    by_cases hz : k a b = 0
    · have hz' : k b a = 0 := by rw [hk, hz]; ring
      simp only [cmpChain, if_pos hz, if_pos hz']
      exact ih (fun k hm => h k (List.mem_cons_of_mem _ hm))
    · have hz' : ¬ k b a = 0 := by rw [hk]; intro hc; exact hz (by omega)
      simp only [cmpChain, if_neg hz, if_neg hz']
      exact hk

theorem cmpChain_eq_zero (ks : List (HaCpuTopo → HaCpuTopo → Int))
    (a b : HaCpuTopo) (h : cmpChain ks a b = 0) : ∀ k ∈ ks, k a b = 0 := by
  induction ks with
  | nil => intro k hk; cases hk
  | cons k t ih =>
    by_cases hz : k a b = 0
    · intro j hj
      rcases List.mem_cons.mp hj with rfl | hm
      · exact hz
      · exact ih (by simpa [cmpChain, if_pos hz] using h) j hm
    · exact absurd (by simpa [cmpChain, if_neg hz] using h) hz

/-- An identifier key with one id unknown decides nothing. -/
theorem keyCmp_unknown (x y : Int) (h : x = -1 ∨ y = -1) : keyCmp x y = 0 := by
  unfold keyCmp
  split_ifs <;> omega

/-- An identifier key with both ids known and unequal decides. -/
theorem keyCmp_known (x y : Int) (hx : 0 ≤ x) (hy : 0 ≤ y) (hne : x ≠ y) :
    keyCmp x y = if x < y then -1 else 1 := by
  unfold keyCmp
  split_ifs <;> omega

theorem keyCmp_ne_zero (x y : Int) (hx : 0 ≤ x) (hy : 0 ≤ y) (hne : x ≠ y) :
    keyCmp x y ≠ 0 := by
  unfold keyCmp
  split_ifs <;> omega

/-- A chain returns the verdict of the first key that decides. -/
theorem cmpChain_append_skip (pre : List (HaCpuTopo → HaCpuTopo → Int))
    (ks : List (HaCpuTopo → HaCpuTopo → Int)) (a b : HaCpuTopo)
    (h : ∀ k ∈ pre, k a b = 0) :
    cmpChain (pre ++ ks) a b = cmpChain ks a b := by
  induction pre with
  | nil => rfl
  | cons k t ih =>
    have hz : k a b = 0 := h k (List.mem_cons_self k t)
    simp only [List.cons_append, cmpChain, if_pos hz]
    exact ih (fun j hj => h j (List.mem_cons_of_mem _ hj))

theorem cmpChain_cons_ne (k : HaCpuTopo → HaCpuTopo → Int)
    (ks : List (HaCpuTopo → HaCpuTopo → Int)) (a b : HaCpuTopo)
    (h : k a b ≠ 0) : cmpChain (k :: ks) a b = k a b := by
  simp only [cmpChain, if_neg h]

theorem cmpChain_ne_zero_of_idx
    (ks : List (HaCpuTopo → HaCpuTopo → Int))
    (hmem : idKey (fun d => d.idx) ∈ ks) (a b : HaCpuTopo)
    (ha : 0 ≤ a.idx) (hb : 0 ≤ b.idx) (hne : a.idx ≠ b.idx) :
    cmpChain ks a b ≠ 0 := by
  intro h0
  exact keyCmp_ne_zero a.idx b.idx ha hb hne
    (cmpChain_eq_zero ks a b h0 _ hmem)

theorem locality_keys_antisym :
    ∀ k ∈ [stKey, idKey (·.pk_id), idKey (·.no_id), idKey (·.ca_id4),
      idKey (·.ca_id3), idKey (·.cl_gid), idKey (·.ca_id2), idKey (·.ts_id),
      idKey (·.ca_id1), idKey (·.ca_id0), idKey (·.idx)], KeyAntisym k := by
  intro k hk
  simp only [List.mem_cons, List.not_mem_nil, or_false] at hk
  rcases hk with rfl | rfl | rfl | rfl | rfl | rfl | rfl | rfl | rfl | rfl | rfl
  exacts [stKey_antisym, idKey_antisym _, idKey_antisym _, idKey_antisym _,
    idKey_antisym _, idKey_antisym _, idKey_antisym _, idKey_antisym _,
    idKey_antisym _, idKey_antisym _, idKey_antisym _]

theorem performance_keys_antisym :
    ∀ k ∈ [stKey, capaKeyDesc, thCntDesc, idKey (·.th_id), idKey (·.ca_id0),
      idKey (·.ca_id1), idKey (·.ts_id), idKey (·.ca_id2), idKey (·.cl_gid),
      idKey (·.ca_id3), idKey (·.ca_id4), idKey (·.no_id), idKey (·.pk_id),
      idKey (·.idx)], KeyAntisym k := by
  intro k hk
  simp only [List.mem_cons, List.not_mem_nil, or_false] at hk
  rcases hk with rfl | rfl | rfl | rfl | rfl | rfl | rfl | rfl | rfl | rfl |
    rfl | rfl | rfl | rfl
  exacts [stKey_antisym, capaKeyDesc_antisym, thCntDesc_antisym,
    idKey_antisym _, idKey_antisym _, idKey_antisym _, idKey_antisym _,
    idKey_antisym _, idKey_antisym _, idKey_antisym _, idKey_antisym _,
    idKey_antisym _, idKey_antisym _, idKey_antisym _]

theorem low_latency_keys_antisym :
    ∀ k ∈ [stKey, idKey (·.pk_id), idKey (·.no_id), idKey (·.ca_id4),
      idKey (·.ca_id3), capaKeyDesc, thCntDesc, idKey (·.cl_gid),
      idKey (·.ca_id2), idKey (·.ts_id), idKey (·.ca_id1), idKey (·.ca_id0),
      idKey (·.idx)], KeyAntisym k := by
  intro k hk
  simp only [List.mem_cons, List.not_mem_nil, or_false] at hk
  rcases hk with rfl | rfl | rfl | rfl | rfl | rfl | rfl | rfl | rfl | rfl |
    rfl | rfl | rfl
  exacts [stKey_antisym, idKey_antisym _, idKey_antisym _, idKey_antisym _,
    idKey_antisym _, capaKeyDesc_antisym, thCntDesc_antisym, idKey_antisym _,
    idKey_antisym _, idKey_antisym _, idKey_antisym _, idKey_antisym _,
    idKey_antisym _]

theorem balanced_keys_antisym :
    ∀ k ∈ [stKey, capaKeyDesc, thCntDesc, idKey (·.pk_id), idKey (·.no_id),
      idKey (·.ca_id4), idKey (·.ca_id3), idKey (·.th_id), idKey (·.cl_gid),
      idKey (·.ca_id2), idKey (·.ts_id), idKey (·.ca_id1), idKey (·.ca_id0),
      idKey (·.idx)], KeyAntisym k := by
  intro k hk
  simp only [List.mem_cons, List.not_mem_nil, or_false] at hk
  rcases hk with rfl | rfl | rfl | rfl | rfl | rfl | rfl | rfl | rfl | rfl |
    rfl | rfl | rfl | rfl
  exacts [stKey_antisym, capaKeyDesc_antisym, thCntDesc_antisym,
    idKey_antisym _, idKey_antisym _, idKey_antisym _, idKey_antisym _,
    idKey_antisym _, idKey_antisym _, idKey_antisym _, idKey_antisym _,
    idKey_antisym _, idKey_antisym _, idKey_antisym _]

theorem resource_keys_antisym :
    ∀ k ∈ [stKey, capaKeyAsc, thCntAsc, idKey (·.pk_id), idKey (·.no_id),
      idKey (·.ca_id4), idKey (·.ca_id3), idKey (·.cl_gid), idKey (·.ca_id2),
      idKey (·.ts_id), idKey (·.ca_id1), idKey (·.ca_id0), idKey (·.idx)],
      KeyAntisym k := by
  intro k hk
  simp only [List.mem_cons, List.not_mem_nil, or_false] at hk
  rcases hk with rfl | rfl | rfl | rfl | rfl | rfl | rfl | rfl | rfl | rfl |
    rfl | rfl | rfl
  exacts [stKey_antisym, capaKeyAsc_antisym, thCntAsc_antisym,
    idKey_antisym _, idKey_antisym _, idKey_antisym _, idKey_antisym _,
    idKey_antisym _, idKey_antisym _, idKey_antisym _, idKey_antisym _,
    idKey_antisym _, idKey_antisym _]

theorem index_keys_antisym :
    ∀ k ∈ [idKey (·.idx)], KeyAntisym k := by
  intro k hk
  simp only [List.mem_singleton] at hk
  subst hk
  exact idKey_antisym _

/-! ### Claim C2 -/

/-- Concrete pair for the C2 counterexample: all higher-priority keys of
`_cmp_cpu_locality` tie (both online, same everything down to the package
key), `c2_a` has a known package id, `c2_b` an unknown one. -/
def c2_a : HaCpuTopo := { dummyTopo with st := 0, idx := 1, pk_id := 0 }

/-- Companion of `c2_a` with unknown package id and smaller index. -/
def c2_b : HaCpuTopo := { dummyTopo with st := 0, idx := 0, pk_id := -1 }

/-- C2, counterexample.  The claim says that, the first key (state) tying, a
descriptor with known package id compares strictly before one with unknown
package id, i.e. `_cmp_cpu_locality c2_a c2_b = -1`.  In fact the identifier
key pattern makes a known-vs-unknown comparison fall through, and the index
key then decides the other way: the comparator returns `1`. -/
theorem claim_C2_counterexample :
    stKey c2_a c2_b = 0 ∧ c2_a.pk_id = 0 ∧ c2_b.pk_id = -1 ∧
    _cmp_cpu_locality c2_a c2_b = 1 := by decide

/-- C2 (amended): in every comparator chain, whenever all higher-priority
keys tie, an identifier key at which either id is unknown (`-1`) decides
nothing — known vs unknown falls through to the next key exactly like two
unknowns — while two known, unequal ids decide the comparison with the
smaller id first. -/
theorem claim_C2_amended
    (pre post : List (HaCpuTopo → HaCpuTopo → Int)) (f : HaCpuTopo → Int)
    (a b : HaCpuTopo) (htie : ∀ k ∈ pre, k a b = 0) :
    ((f a = -1 ∨ f b = -1) →
      cmpChain (pre ++ idKey f :: post) a b = cmpChain post a b) ∧
    (0 ≤ f a → 0 ≤ f b → f a ≠ f b →
      cmpChain (pre ++ idKey f :: post) a b = if f a < f b then -1 else 1) := by
  constructor
  · intro hu
    rw [cmpChain_append_skip pre _ a b htie]
    have h0 : idKey f a b = 0 := keyCmp_unknown (f a) (f b) hu
    simp [cmpChain, h0]
  · intro h1 h2 h3
    rw [cmpChain_append_skip pre _ a b htie,
      cmpChain_cons_ne _ _ a b (fun hc => keyCmp_ne_zero (f a) (f b) h1 h2 h3 hc)]
    exact keyCmp_known (f a) (f b) h1 h2 h3

/-- Known-package descriptor for the C2 witness. -/
def c2w_a : HaCpuTopo := { dummyTopo with st := 0, idx := 5, pk_id := 2 }

/-- Unknown-package descriptor for the C2 witness. -/
def c2w_b : HaCpuTopo := { dummyTopo with st := 0, idx := 3, pk_id := -1 }

/-- Witness for `claim_C2_amended` at the package key of a locality-style
chain. -/
theorem claim_C2_amended_witness :
    cmpChain ([stKey] ++ idKey (fun d => d.pk_id) :: [idKey (fun d => d.idx)])
      c2w_a c2w_b = cmpChain [idKey (fun d => d.idx)] c2w_a c2w_b :=
  (claim_C2_amended [stKey] [idKey (fun d => d.idx)] (fun d => d.pk_id)
    c2w_a c2w_b
    (by intro k hk; simp only [List.mem_singleton] at hk; subst hk; decide)).1
    (Or.inr (by decide))

/-! ### Claim C4 -/

/-- First element of the C4 intransitivity triple. -/
def c4_a : HaCpuTopo := { dummyTopo with st := 0, idx := 0, pk_id := 0, no_id := 9 }

/-- Second element of the C4 intransitivity triple. -/
def c4_b : HaCpuTopo := { dummyTopo with st := 0, idx := 1, pk_id := 1, no_id := 0 }

/-- Third element of the C4 intransitivity triple (unknown package id). -/
def c4_c : HaCpuTopo := { dummyTopo with st := 0, idx := 2, pk_id := -1, no_id := 5 }

/-- C4, counterexample: `_cmp_cpu_locality` is not transitive, hence not a
total order.  `c4_a` sorts before `c4_b` (package 0 < 1), `c4_b` sorts
before `c4_c` (packages tie because `c4_c`'s is unknown, node 0 < 5), yet
`c4_a` sorts after `c4_c` (packages tie, node 9 > 5). -/
theorem claim_C4_counterexample :
    _cmp_cpu_locality c4_a c4_b ≤ 0 ∧ _cmp_cpu_locality c4_b c4_c ≤ 0 ∧
    0 < _cmp_cpu_locality c4_a c4_c := by decide

/-- C4 (amended): each of the six strategy comparators is antisymmetric
(`cmp b a = -(cmp a b)`), and on two descriptors with distinct non-negative
`idx` it never returns 0; transitivity, however, fails in general (see the
counterexample), so the comparators are not total orders on descriptors
with unknown ids or 5%-close capacities. -/
theorem claim_C4_amended :
    (∀ a b : HaCpuTopo,
      _cmp_cpu_balanced b a = -(_cmp_cpu_balanced a b) ∧
      _cmp_cpu_performance b a = -(_cmp_cpu_performance a b) ∧
      _cmp_cpu_low_latency b a = -(_cmp_cpu_low_latency a b) ∧
      _cmp_cpu_locality b a = -(_cmp_cpu_locality a b) ∧
      _cmp_cpu_resource b a = -(_cmp_cpu_resource a b) ∧
      _cmp_cpu_index b a = -(_cmp_cpu_index a b)) ∧
    (∀ a b : HaCpuTopo, 0 ≤ a.idx → 0 ≤ b.idx → a.idx ≠ b.idx →
      _cmp_cpu_balanced a b ≠ 0 ∧ _cmp_cpu_performance a b ≠ 0 ∧
      _cmp_cpu_low_latency a b ≠ 0 ∧ _cmp_cpu_locality a b ≠ 0 ∧
      _cmp_cpu_resource a b ≠ 0 ∧ _cmp_cpu_index a b ≠ 0) := by
  constructor
  · intro a b
    exact ⟨cmpChain_antisym _ balanced_keys_antisym a b,
      cmpChain_antisym _ performance_keys_antisym a b,
      cmpChain_antisym _ low_latency_keys_antisym a b,
      cmpChain_antisym _ locality_keys_antisym a b,
      cmpChain_antisym _ resource_keys_antisym a b,
      cmpChain_antisym _ index_keys_antisym a b⟩
  · intro a b h1 h2 h3
    refine ⟨?_, ?_, ?_, ?_, ?_, ?_⟩ <;>
      exact cmpChain_ne_zero_of_idx _
        (by repeat first | exact List.Mem.head _ | apply List.Mem.tail)
        a b h1 h2 h3

/-- Witness descriptor (index 0) for `claim_C4_amended`. -/
def c4w_a : HaCpuTopo := { dummyTopo with st := 0, idx := 0 }

/-- Witness descriptor (index 1) for `claim_C4_amended`. -/
def c4w_b : HaCpuTopo := { dummyTopo with st := 0, idx := 1 }

/-- Witness for `claim_C4_amended`: at two concrete descriptors with
distinct non-negative indexes, no comparator returns 0. -/
theorem claim_C4_amended_witness :
    _cmp_cpu_balanced c4w_a c4w_b ≠ 0 ∧ _cmp_cpu_performance c4w_a c4w_b ≠ 0 ∧
    _cmp_cpu_low_latency c4w_a c4w_b ≠ 0 ∧ _cmp_cpu_locality c4w_a c4w_b ≠ 0 ∧
    _cmp_cpu_resource c4w_a c4w_b ≠ 0 ∧ _cmp_cpu_index c4w_a c4w_b ≠ 0 :=
  claim_C4_amended.2 c4w_a c4w_b (by decide) (by decide) (by decide)

/-! ### Claim C1 -/

/-- Configuration for C1: no reset flag, no drop sets, only-sets holding all
CPU numbers of the 2-slot store (the `cpu_topo_alloc` default). -/
def c1_cfg : CpuSetCfg :=
  { flags := 0, only_cpus := {0, 1}, drop_cpus := ∅, only_nodes := {0, 1},
    drop_nodes := ∅, only_clusters := {0, 1}, drop_clusters := ∅,
    only_cores := {0, 1}, drop_cores := ∅, only_threads := {0, 1},
    drop_threads := ∅ }

/-- 2-slot store for C1 in the `cpu_topo_alloc` initial state. -/
def c1_topo : List HaCpuTopo :=
  [{ dummyTopo with idx := 0 }, { dummyTopo with idx := 1 }]

/-- C1: when `ha_cpuset_detect_bound` fails it leaves its result set empty
(and returns 0, which `cpu_detect_usable` never checks).  The claim says no
CPU gets EXCLUDED on account of boot affinity; in fact the boot-affinity
step then excludes every CPU: both slots go from `st = 0` to
`st = HA_CPU_F_EXCLUDED`, and the full usability pass (configured drop sets
empty, only-sets full, online probe also empty) reports the same. -/
theorem claim_C1_bug :
    c1_topo.map (fun d => d.st &&& HA_CPU_F_EXCLUDED) = [0, 0] ∧
    (cpu_usable_boot c1_cfg ∅ c1_topo).map
      (fun d => d.st &&& HA_CPU_F_EXCLUDED) = [1, 1] ∧
    (cpu_detect_usable c1_cfg ∅ ∅ c1_topo).map (fun d => d.st) = [1, 1] := by
  decide

/-! ### Claim C3 -/

/-- C3 run A: three CPUs of one (package 0, node 0, no L4) run, all sharing
the single L2 group 0 and lacking an L3 id. -/
def c3_runA : List HaCpuTopo :=
  [{ dummyTopo with st := 0, idx := 0, ca_id2 := 0, pk_id := 0, no_id := 0 },
   { dummyTopo with st := 0, idx := 1, ca_id2 := 0, pk_id := 0, no_id := 0 },
   { dummyTopo with st := 0, idx := 2, ca_id2 := 0, pk_id := 0, no_id := 0 }]

/-- C3 run B: two CPUs of one (package 0, node 0, no L4) run, in two
distinct L2 groups (0 and 1), lacking an L3 id. -/
def c3_runB : List HaCpuTopo :=
  [{ dummyTopo with st := 0, idx := 0, ca_id2 := 0, pk_id := 0, no_id := 0 },
   { dummyTopo with st := 0, idx := 1, ca_id2 := 1, pk_id := 0, no_id := 0 }]

/-- C3: the L3-synthesis step contradicts its own "count L2 instances"
comment (the loop never stores the current L2 id into `prev_gid`, so it
counts CPUs of the run instead of distinct L2 groups).  Run A has a single
distinct L2 group, so per the claim the run must keep L3 unknown, yet the
code assigns the synthetic L3 id 0 to all three CPUs; run B has two
distinct L2 groups, so per the claim it must receive L3 id 0, yet the code
leaves both CPUs unknown. -/
theorem claim_C3_bug :
    (cpu_fixup_l3 (lastcpuFn c3_runA) c3_runA).map (fun d => d.ca_id3) =
      [0, 0, 0] ∧
    (cpu_fixup_l3 (lastcpuFn c3_runB) c3_runB).map (fun d => d.ca_id3) =
      [-1, -1] := by
  decide

/-! ### Claim C5 -/

/-- C5 counterexample store: slot 0 online, slot 1 OFFLINE, both with
unknown capacity and a single thread per core. -/
def c5_topo : List HaCpuTopo :=
  [{ dummyTopo with st := 0, idx := 0, th_cnt := 1 },
   { dummyTopo with st := HA_CPU_F_OFFLINE, idx := 1, th_cnt := 1 }]

/-- C5, counterexample: the capacity-default loop stops at `lastcpu` (the
highest non-OFFLINE slot, here 0), so the trailing OFFLINE descriptor with
unknown capacity and `th_cnt = 1` keeps capacity `-1` instead of the 50 the
claim requires for every descriptor in the store. -/
theorem claim_C5_counterexample :
    c5_topo.map (fun d => d.capa) = [-1, -1] ∧
    c5_topo.map (fun d => d.th_cnt) = [1, 1] ∧
    lastcpuFn c5_topo = 0 ∧
    (cpu_fixup_capa (lastcpuFn c5_topo) c5_topo).map (fun d => d.capa) =
      [50, -1] := by
  decide

/-- C5 (amended): after the capacity-default step, every descriptor at an
index at most `lastcpu` (the highest non-OFFLINE slot) whose capacity was
unknown gets 100 when its sibling-thread count exceeds 1 and 50 otherwise,
and keeps its capacity when it was known; descriptors beyond `lastcpu` are
untouched. -/
theorem claim_C5_amended (topo : List HaCpuTopo) (cpu : Nat) (d : HaCpuTopo)
    (h : topo.get? cpu = some d) :
    (cpu ≤ lastcpuFn topo →
      (cpu_fixup_capa (lastcpuFn topo) topo).get? cpu =
        some { d with capa :=
          if d.capa < 0 then (if d.th_cnt > 1 then 100 else 50) else d.capa }) ∧
    (lastcpuFn topo < cpu →
      (cpu_fixup_capa (lastcpuFn topo) topo).get? cpu = some d) := by
  constructor
  · intro hle
    rw [cpu_fixup_capa, mapIdxFrom_get?, h]
    simp only [Option.map_some', Nat.zero_add]
    by_cases hc : d.capa < 0
    · rw [if_pos (show cpu ≤ lastcpuFn topo ∧ d.capa < 0 from ⟨hle, hc⟩),
        if_pos hc]
    · rw [if_neg (show ¬(cpu ≤ lastcpuFn topo ∧ d.capa < 0) from
        fun hh => hc hh.2), if_neg hc]
  · intro hgt
    rw [cpu_fixup_capa, mapIdxFrom_get?, h]
    simp only [Option.map_some', Nat.zero_add]
    rw [if_neg (show ¬(cpu ≤ lastcpuFn topo ∧ d.capa < 0) from
      fun hh => absurd hh.1 (by omega))]

/-- Witness store for `claim_C5_amended`. -/
def c5w_topo : List HaCpuTopo :=
  [{ dummyTopo with st := 0, idx := 0, th_cnt := 2 }]

/-- Witness for `claim_C5_amended` at slot 0 of a 1-CPU store with unknown
capacity and two sibling threads. -/
theorem claim_C5_amended_witness :
    (cpu_fixup_capa (lastcpuFn c5w_topo) c5w_topo).get? 0 =
      some { { dummyTopo with st := 0, idx := 0, th_cnt := 2 } with capa :=
        if ({ dummyTopo with st := 0, idx := 0, th_cnt := 2 } : HaCpuTopo).capa < 0 then
          (if ({ dummyTopo with st := 0, idx := 0, th_cnt := 2 } : HaCpuTopo).th_cnt > 1 then 100 else 50)
        else ({ dummyTopo with st := 0, idx := 0, th_cnt := 2 } : HaCpuTopo).capa } :=
  (claim_C5_amended c5w_topo 0 _ (by rfl)).1 (by decide)

/-! ### Claim C7 -/

/-- C7 store: four online CPUs sharing package 0, node 0 and L3 id 0, with
capacities 100, 100, 50, 50. -/
def c7_topo : List HaCpuTopo :=
  [{ dummyTopo with st := 0, idx := 0, ca_id3 := 0, pk_id := 0, no_id := 0, capa := 100 },
   { dummyTopo with st := 0, idx := 1, ca_id3 := 0, pk_id := 0, no_id := 0, capa := 100 },
   { dummyTopo with st := 0, idx := 2, ca_id3 := 0, pk_id := 0, no_id := 0, capa := 50 },
   { dummyTopo with st := 0, idx := 3, ca_id3 := 0, pk_id := 0, no_id := 0, capa := 50 }]

/-- C7: running the full fixup on the capacity-split store assigns cluster
global id 0 to CPUs 0 and 1 and the distinct cluster global id 1 to CPUs 2
and 3 (the result is listed back in index order by the final re-sort). -/
theorem claim_C7 :
    (cpu_fixup_topology c7_topo).map (fun d => (d.idx, d.cl_gid)) =
      [(0, 0), (1, 0), (2, 1), (3, 1)] := by
  decide

/-! ### Filter-engine element formulas -/

theorem lor_right_eq_zero {x y : Nat} (h : x ||| y = 0) : y = 0 := by
  apply Nat.eq_of_testBit_eq
  intro i
  have hb := congrArg (fun n => Nat.testBit n i) h
  simp only [Nat.testBit_or, Nat.zero_testBit, Bool.or_eq_false_iff] at hb
  simp [hb.2]

/-- ORing a flag into a word makes its bit test nonzero. -/
theorem lor_flag_hit (x f : Nat) (hf : f &&& f ≠ 0) :
    (x ||| f) &&& f ≠ 0 := by
  rw [land_lor_right]
  intro hz
  exact hf (lor_right_eq_zero hz)

/-- Specialization of `mapIdxFrom_getElem?` to a loop starting at CPU 0. -/
theorem mapIdxFrom_zero_getElem? (f : Nat → α → α) (l : List α) (i : Nat) :
    (mapIdxFrom f 0 l)[i]? = l[i]?.map (f i) := by
  rw [mapIdxFrom_getElem?, Nat.zero_add]

theorem usable_boot_elem (cfg : CpuSetCfg) (bnd : hap_cpuset)
    (topo : List HaCpuTopo) (cpu : Nat) (d : HaCpuTopo)
    (h : topo[cpu]? = some d) :
    (cpu_usable_boot cfg bnd topo)[cpu]? =
      some { d with st := d.st ||| boot_test cfg bnd cpu } := by
  unfold cpu_usable_boot boot_test setFlag
  by_cases hr : cfg.flags &&& CPU_SET_FL_DO_RESET = 0
  · rw [if_pos hr, mapIdxFrom_zero_getElem?, h, Option.map_some']
    by_cases hb : ha_cpuset_isset bnd (cpu : Int) = false
    · rw [if_pos hb, if_pos (show cfg.flags &&& CPU_SET_FL_DO_RESET = 0 ∧
        ha_cpuset_isset bnd (cpu : Int) = false from ⟨hr, hb⟩)]
    · rw [if_neg hb, if_neg (show ¬(cfg.flags &&& CPU_SET_FL_DO_RESET = 0 ∧
        ha_cpuset_isset bnd (cpu : Int) = false) from fun hh => hb hh.2)]
      simp
  · rw [if_neg hr, h, if_neg (show ¬(cfg.flags &&& CPU_SET_FL_DO_RESET = 0 ∧
      ha_cpuset_isset bnd (cpu : Int) = false) from fun hh => hr hh.1)]
    simp

theorem usable_cpuset_elem (cfg : CpuSetCfg) (topo : List HaCpuTopo)
    (cpu : Nat) (d : HaCpuTopo) (h : topo[cpu]? = some d) :
    (cpu_usable_cpuset cfg topo)[cpu]? =
      some { d with st := d.st ||| cpuset_test cfg cpu } := by
  unfold cpu_usable_cpuset cpuset_test setFlag
  rw [mapIdxFrom_zero_getElem?, h, Option.map_some']
  by_cases hc : (ha_cpuset_isset cfg.drop_cpus (cpu : Int)
    || !ha_cpuset_isset cfg.only_cpus (cpu : Int)) = true
  · rw [if_pos hc, if_pos hc]
  · rw [if_neg hc, if_neg hc]
    simp

theorem usable_online_elem (onl : hap_cpuset) (topo : List HaCpuTopo)
    (cpu : Nat) (d : HaCpuTopo) (h : topo[cpu]? = some d) :
    (cpu_usable_online onl topo)[cpu]? =
      some { d with st := d.st ||| online_test onl cpu } := by
  unfold cpu_usable_online online_test setFlag
  by_cases ho : ha_cpuset_count onl ≠ 0
  · rw [if_pos ho, mapIdxFrom_zero_getElem?, h, Option.map_some']
    by_cases hon : ha_cpuset_isset onl (cpu : Int) = false
    · rw [if_pos hon, if_pos (show ha_cpuset_count onl ≠ 0 ∧
        ha_cpuset_isset onl (cpu : Int) = false from ⟨ho, hon⟩)]
    · rw [if_neg hon, if_neg (show ¬(ha_cpuset_count onl ≠ 0 ∧
        ha_cpuset_isset onl (cpu : Int) = false) from fun hh => hon hh.2)]
      simp
  · rw [if_neg ho, h, if_neg (show ¬(ha_cpuset_count onl ≠ 0 ∧
      ha_cpuset_isset onl (cpu : Int) = false) from fun hh => ho hh.1)]
    simp

/-- Element-level formula for `cpu_detect_usable`: the final state word is
the old one ORed with the outcome of each individual membership test. -/
theorem usable_get? (cfg : CpuSetCfg) (bnd onl : hap_cpuset)
    (topo : List HaCpuTopo) (cpu : Nat) (d : HaCpuTopo)
    (h : topo.get? cpu = some d) :
    (cpu_detect_usable cfg bnd onl topo).get? cpu =
      some { d with st := (d.st ||| boot_test cfg bnd cpu |||
        cpuset_test cfg cpu ||| online_test onl cpu) } := by
  rw [List.get?_eq_getElem?] at h ⊢
  exact usable_online_elem onl _ cpu _
    (usable_cpuset_elem cfg _ cpu _ (usable_boot_elem cfg bnd topo cpu d h))

theorem refine_nodes_elem (cfg : CpuSetCfg) (topo : List HaCpuTopo)
    (cpu : Nat) (d : HaCpuTopo) (h : topo[cpu]? = some d) :
    (cpu_refine_nodes cfg topo)[cpu]? =
      some { d with st := d.st ||| node_test cfg d } := by
  unfold cpu_refine_nodes node_test setFlag
  rw [List.getElem?_map, h, Option.map_some']
  by_cases hc : (ha_cpuset_isset cfg.drop_nodes d.no_id
    || !ha_cpuset_isset cfg.only_nodes d.no_id) = true
  · rw [if_pos hc, if_pos hc]
  · rw [if_neg hc, if_neg hc]
    simp

theorem refine_clusters_elem (cfg : CpuSetCfg) (topo : List HaCpuTopo)
    (cpu : Nat) (d : HaCpuTopo) (h : topo[cpu]? = some d) :
    (cpu_refine_clusters cfg topo)[cpu]? =
      some { d with st := d.st ||| cluster_test cfg d } := by
  unfold cpu_refine_clusters cluster_test setFlag
  rw [List.getElem?_map, h, Option.map_some']
  by_cases hc : (ha_cpuset_isset cfg.drop_clusters d.cl_lid
    || !ha_cpuset_isset cfg.only_clusters d.cl_lid) = true
  · rw [if_pos hc, if_pos hc]
  · rw [if_neg hc, if_neg hc]
    simp

theorem refine_cores_elem (cfg : CpuSetCfg) (topo : List HaCpuTopo)
    (cpu : Nat) (d : HaCpuTopo) (h : topo[cpu]? = some d) :
    (cpu_refine_cores cfg topo)[cpu]? =
      some { d with st := d.st ||| core_test cfg d } := by
  unfold cpu_refine_cores core_test setFlag
  rw [List.getElem?_map, h, Option.map_some']
  by_cases hc : (ha_cpuset_isset cfg.drop_cores d.ts_id
    || !ha_cpuset_isset cfg.only_cores d.ts_id) = true
  · rw [if_pos hc, if_pos hc]
  · rw [if_neg hc, if_neg hc]
    simp

theorem refine_threads_elem (cfg : CpuSetCfg) (topo : List HaCpuTopo)
    (cpu : Nat) (d : HaCpuTopo) (h : topo[cpu]? = some d) :
    (cpu_refine_threads cfg topo)[cpu]? =
      some { d with st := d.st ||| thread_test cfg d } := by
  unfold cpu_refine_threads thread_test setFlag
  rw [List.getElem?_map, h, Option.map_some']
  by_cases hc : (ha_cpuset_isset cfg.drop_threads d.th_id
    || !ha_cpuset_isset cfg.only_threads d.th_id) = true
  · rw [if_pos hc, if_pos hc]
  · rw [if_neg hc, if_neg hc]
    simp

/-- Element-level formula for `cpu_refine_cpusets`: the final state word is
the old one ORed with the outcome of the four dimension tests. -/
theorem refine_get? (cfg : CpuSetCfg) (topo : List HaCpuTopo) (cpu : Nat)
    (d : HaCpuTopo) (h : topo.get? cpu = some d) :
    (cpu_refine_cpusets cfg topo).get? cpu =
      some { d with st := (d.st ||| node_test cfg d ||| cluster_test cfg d |||
        core_test cfg d ||| thread_test cfg d) } := by
  rw [List.get?_eq_getElem?] at h ⊢
  exact refine_threads_elem cfg _ cpu _ (refine_cores_elem cfg _ cpu _
    (refine_clusters_elem cfg _ cpu _ (refine_nodes_elem cfg topo cpu d h)))

/-! ### Claim C6 -/

/-- C6: under the (well-formedness) assumption that a bitset membership
test at index `-1` returns false, the refinement pass EXCLUDEs every CPU
whose id in some dimension is unknown (`-1`), whatever the rest of the
configuration: an unknown id cannot pass the dimension's only-set test. -/
theorem claim_C6 (cfg : CpuSetCfg) (topo : List HaCpuTopo) (cpu : Nat)
    (d d' : HaCpuTopo) (h : topo.get? cpu = some d)
    (h' : (cpu_refine_cpusets cfg topo).get? cpu = some d')
    (hdim : (ha_cpuset_isset cfg.only_nodes (-1) = false ∧ d.no_id = -1) ∨
            (ha_cpuset_isset cfg.only_clusters (-1) = false ∧ d.cl_lid = -1) ∨
            (ha_cpuset_isset cfg.only_cores (-1) = false ∧ d.ts_id = -1) ∨
            (ha_cpuset_isset cfg.only_threads (-1) = false ∧ d.th_id = -1)) :
    d'.st &&& HA_CPU_F_EXCLUDED ≠ 0 := by
  rw [refine_get? cfg topo cpu d h] at h'
  have hst : d'.st = d.st ||| node_test cfg d ||| cluster_test cfg d |||
      core_test cfg d ||| thread_test cfg d := by
    have h2 := Option.some.inj h'
    rw [← h2]
  rw [hst]
  have hhit : ∀ x : Nat, (x ||| HA_CPU_F_EXCLUDED) &&& HA_CPU_F_EXCLUDED ≠ 0 :=
    fun x => lor_flag_hit x HA_CPU_F_EXCLUDED (by decide)
  rcases hdim with ⟨hs, hid⟩ | ⟨hs, hid⟩ | ⟨hs, hid⟩ | ⟨hs, hid⟩
  · have ht : node_test cfg d = HA_CPU_F_EXCLUDED := by
      unfold node_test
      rw [if_pos (by rw [hid, hs]; simp)]
    rw [ht]
    exact flag_mono _ _ _ (flag_mono _ _ _ (flag_mono _ _ _ (hhit d.st)))
  · have ht : cluster_test cfg d = HA_CPU_F_EXCLUDED := by
      unfold cluster_test
      rw [if_pos (by rw [hid, hs]; simp)]
    rw [ht]
    exact flag_mono _ _ _ (flag_mono _ _ _ (hhit _))
  · have ht : core_test cfg d = HA_CPU_F_EXCLUDED := by
      unfold core_test
      rw [if_pos (by rw [hid, hs]; simp)]
    rw [ht]
    exact flag_mono _ _ _ (hhit _)
  · have ht : thread_test cfg d = HA_CPU_F_EXCLUDED := by
      unfold thread_test
      rw [if_pos (by rw [hid, hs]; simp)]
    rw [ht]
    exact hhit _

/-- Witness configuration for C6: only-sets `{0}`, no `-1` member. -/
def c6w_cfg : CpuSetCfg :=
  { flags := 0, only_cpus := {0}, drop_cpus := ∅, only_nodes := {0},
    drop_nodes := ∅, only_clusters := {0}, drop_clusters := ∅,
    only_cores := {0}, drop_cores := ∅, only_threads := {0},
    drop_threads := ∅ }

/-- Witness store for C6: one CPU with unknown node id. -/
def c6w_topo : List HaCpuTopo :=
  [{ dummyTopo with st := 0, idx := 0, cl_lid := 0, ts_id := 0, th_id := 0 }]

/-- Witness for `claim_C6`: the unknown-node CPU of `c6w_topo` comes out of
the refinement pass EXCLUDED. -/
theorem claim_C6_witness :
    (((cpu_refine_cpusets c6w_cfg c6w_topo).get? 0).getD dummyTopo).st &&&
      HA_CPU_F_EXCLUDED ≠ 0 :=
  claim_C6 c6w_cfg c6w_topo 0 _ _ (by rfl) (by rfl)
    (Or.inl ⟨by decide, by decide⟩)

/-! ### Claim C8 -/

/-- C8: both filter passes only add flags and their outcome is the OR of
the individual membership-test outcomes (the union formula), which is
independent of the order of the dimension tests since `|||` is associative
and commutative; in particular any flag set before either pass is still set
after it. -/
theorem claim_C8 :
    (∀ (cfg : CpuSetCfg) (bnd onl : hap_cpuset) (topo : List HaCpuTopo)
       (cpu : Nat) (d : HaCpuTopo), topo.get? cpu = some d →
      (cpu_detect_usable cfg bnd onl topo).get? cpu =
        some { d with st := (d.st ||| boot_test cfg bnd cpu |||
          cpuset_test cfg cpu ||| online_test onl cpu) }) ∧
    (∀ (cfg : CpuSetCfg) (topo : List HaCpuTopo) (cpu : Nat) (d : HaCpuTopo),
      topo.get? cpu = some d →
      (cpu_refine_cpusets cfg topo).get? cpu =
        some { d with st := (d.st ||| node_test cfg d ||| cluster_test cfg d |||
          core_test cfg d ||| thread_test cfg d) }) ∧
    (∀ (cfg : CpuSetCfg) (bnd onl : hap_cpuset) (topo : List HaCpuTopo)
       (cpu : Nat) (d d' : HaCpuTopo) (f : Nat), topo.get? cpu = some d →
      (cpu_detect_usable cfg bnd onl topo).get? cpu = some d' →
      d.st &&& f ≠ 0 → d'.st &&& f ≠ 0) ∧
    (∀ (cfg : CpuSetCfg) (topo : List HaCpuTopo) (cpu : Nat)
       (d d' : HaCpuTopo) (f : Nat), topo.get? cpu = some d →
      (cpu_refine_cpusets cfg topo).get? cpu = some d' →
      d.st &&& f ≠ 0 → d'.st &&& f ≠ 0) := by
  refine ⟨usable_get?, refine_get?, ?_, ?_⟩
  · intro cfg bnd onl topo cpu d d' f h h' hf
    rw [usable_get? cfg bnd onl topo cpu d h] at h'
    have hst := congrArg HaCpuTopo.st (Option.some.inj h')
    rw [← hst]
    exact flag_mono _ _ _ (flag_mono _ _ _ (flag_mono _ _ _ hf))
  · intro cfg topo cpu d d' f h h' hf
    rw [refine_get? cfg topo cpu d h] at h'
    have hst := congrArg HaCpuTopo.st (Option.some.inj h')
    rw [← hst]
    exact flag_mono _ _ _
      (flag_mono _ _ _ (flag_mono _ _ _ (flag_mono _ _ _ hf)))

/-- Witness store for C8. -/
def c8w_topo : List HaCpuTopo := [{ dummyTopo with st := 0, idx := 0 }]

/-- Witness configuration for C8: empty only-sets, so the cpu test fires. -/
def c8w_cfg : CpuSetCfg :=
  { flags := 0, only_cpus := ∅, drop_cpus := ∅, only_nodes := ∅,
    drop_nodes := ∅, only_clusters := ∅, drop_clusters := ∅,
    only_cores := ∅, drop_cores := ∅, only_threads := ∅, drop_threads := ∅ }

/-- Witness for `claim_C8` (first conjunct) at a concrete store. -/
theorem claim_C8_witness :
    (cpu_detect_usable c8w_cfg ∅ ∅ c8w_topo).get? 0 =
      some { ({ dummyTopo with st := 0, idx := 0 } : HaCpuTopo) with
        st := ((0 : Nat) ||| boot_test c8w_cfg ∅ 0 ||| cpuset_test c8w_cfg 0 |||
          online_test ∅ 0) } :=
  claim_C8.1 c8w_cfg ∅ ∅ c8w_topo 0 _ (by rfl)

/-! ### Claim C9 -/

/-- C9: when the online probe reports 0 CPUs (it failed or found nothing),
`cpu_detect_usable` skips the offline-marking loop entirely: the OFFLINE
bit of every CPU is exactly what it was before the call. -/
theorem claim_C9 (cfg : CpuSetCfg) (bnd onl : hap_cpuset)
    (topo : List HaCpuTopo) (cpu : Nat) (d : HaCpuTopo)
    (hcnt : ha_cpuset_count onl = 0) (h : topo.get? cpu = some d) :
    ((cpu_detect_usable cfg bnd onl topo).get? cpu).map
      (fun e => e.st &&& HA_CPU_F_OFFLINE) =
      some (d.st &&& HA_CPU_F_OFFLINE) := by
  rw [usable_get? cfg bnd onl topo cpu d h]
  simp only [Option.map_some']
  congr 1
  show (d.st ||| boot_test cfg bnd cpu ||| cpuset_test cfg cpu |||
    online_test onl cpu) &&& HA_CPU_F_OFFLINE = d.st &&& HA_CPU_F_OFFLINE
  have hon : online_test onl cpu = 0 := by
    unfold online_test
    exact if_neg (fun hh => hh.1 hcnt)
  have hbt : boot_test cfg bnd cpu &&& HA_CPU_F_OFFLINE = 0 := by
    unfold boot_test
    split_ifs <;> decide
  have hct : cpuset_test cfg cpu &&& HA_CPU_F_OFFLINE = 0 := by
    unfold cpuset_test
    split_ifs <;> decide
  rw [hon, Nat.or_zero, lor_flag_preserves _ _ _ hct,
    lor_flag_preserves _ _ _ hbt]

/-! ### Claim C10 -/

/-- The fields of a descriptor that `cpu_fixup_topology` never writes:
st, idx, tg_id, th_cnt, th_id, no_id, pk_id, ca_id[0], ca_id[1], ca_id[2],
ca_id[4]. -/
def frameOf (d : HaCpuTopo) :
    Nat × Int × Int × Int × Int × Int × Int × Int × Int × Int × Int :=
  (d.st, d.idx, d.tg_id, d.th_cnt, d.th_id, d.no_id, d.pk_id,
   d.ca_id0, d.ca_id1, d.ca_id2, d.ca_id4)

theorem capa_frame (L : Nat) (topo : List HaCpuTopo) :
    (cpu_fixup_capa L topo).map frameOf = topo.map frameOf := by
  unfold cpu_fixup_capa
  apply mapIdxFrom_map_eq
  intro i d
  dsimp only
  split_ifs <;> rfl

theorem l3_assign_frame (L c2 : Nat) (pk no ca4 : Int)
    (arr : List HaCpuTopo) :
    (l3_assign L c2 pk no ca4 arr).map frameOf = arr.map frameOf := by
  unfold l3_assign
  apply mapIdxFrom_map_eq
  intro i e
  dsimp only
  split_ifs <;> rfl

theorem l3_go_frame (L : Nat) :
    ∀ (fuel cpu : Nat) (arr : List HaCpuTopo) (cg pg : Int) (c2 : Nat),
      (l3_go L fuel cpu arr cg pg c2).map frameOf = arr.map frameOf := by
  intro fuel
  induction fuel with
  | zero => intro cpu arr cg pg c2; rfl
  | succ n ih =>
    intro cpu arr cg pg c2
    simp only [l3_go]
    split_ifs <;>
      first
        | rfl
        | (rw [ih]; try rw [l3_assign_frame])

theorem clust_go_frame (L : Nat) :
    ∀ (l : List HaCpuTopo) (i : Nat) (prevE : Option HaCpuTopo)
      (pg pl cg cl2 : Int),
      (clust_go L i prevE pg pl cg cl2 l).map frameOf = l.map frameOf := by
  intro l
  induction l with
  | nil => intro i prevE pg pl cg cl2; rfl
  | cons d rest ih =>
    intro i prevE pg pl cg cl2
    simp only [clust_go]
    split_ifs
    · rfl
    · simp only [List.map_cons, ih]
      rfl

theorem ts_go_frame (L : Nat) :
    ∀ (l : List HaCpuTopo) (i : Nat) (prevE : Option HaCpuTopo) (pl cl : Int),
      (ts_go L i prevE pl cl l).map frameOf = l.map frameOf := by
  intro l
  induction l with
  | nil => intro i prevE pl cl; rfl
  | cons d rest ih =>
    intro i prevE pl cl
    simp only [ts_go]
    split_ifs
    · rfl
    · simp only [List.map_cons, ih]
      rfl

/-- C10: `cpu_fixup_topology` permutes the store and touches, in each
descriptor, only the fields capa, ca_id[3], cl_gid, cl_lid and ts_id — the
multiset of the remaining fields (st, idx, tg_id, th_cnt, th_id, no_id,
pk_id, ca_id[0], ca_id[1], ca_id[2], ca_id[4]) is exactly preserved, so on
a store with distinct idx values every descriptor keeps those fields. -/
theorem claim_C10 (topo : List HaCpuTopo) :
    ((cpu_fixup_topology topo).map frameOf).Perm (topo.map frameOf) := by
  unfold cpu_fixup_topology cpu_reorder_by_index cpu_reorder_by_locality
    cpu_reorder_by_cluster_capa cpu_fixup_l3 cpu_fixup_clusters cpu_fixup_ts
  refine ((qsortc_perm _ _).map frameOf).trans ?_
  rw [ts_go_frame]
  refine ((qsortc_perm _ _).map frameOf).trans ?_
  rw [clust_go_frame]
  refine ((qsortc_perm _ _).map frameOf).trans ?_
  rw [l3_go_frame]
  refine ((qsortc_perm _ _).map frameOf).trans ?_
  rw [capa_frame]

/-- Witness store for C9: one CPU already OFFLINE, one not. -/
def c9w_topo : List HaCpuTopo :=
  [{ dummyTopo with st := HA_CPU_F_OFFLINE, idx := 0 }]

/-- Witness for `claim_C9`: with an empty online-probe result the OFFLINE
bit is untouched. -/
theorem claim_C9_witness :
    ((cpu_detect_usable c8w_cfg ∅ ∅ c9w_topo).get? 0).map
      (fun e => e.st &&& HA_CPU_F_OFFLINE) =
      some (HA_CPU_F_OFFLINE &&& HA_CPU_F_OFFLINE) :=
  claim_C9 c8w_cfg ∅ ∅ c9w_topo 0 _ (by rfl) (by rfl)

end CpuTopo
